import Mathlib

/-!
Verification of the RTP/RTCP relay engine (`RTPProxy`) of this repository.

A Node `Buffer` of bytes is modelled as a `List Nat` (each element one byte).
The in-place `readUIntNBE` / `writeUIntNBE` accessors of `Buffer` are modelled
as pure functions on the list; `Buffer.slice` (a view that is only written
inside its own range by the code under study) is modelled as a copying slice.
The forwarding sink (`sendOut`) is modelled by returning the list of buffers
handed to it, in order.
-/

namespace RTPProxy

/-- Read one byte at index `i` (out-of-range reads, which the source never
performs on the guarded paths, default to 0). -/
def readUInt8 (msg : List Nat) (i : Nat) : Nat := msg.getD i 0

/-- Big-endian 16-bit read at index `i`. -/
def readUInt16BE (msg : List Nat) (i : Nat) : Nat :=
  msg.getD i 0 * 0x100 + msg.getD (i + 1) 0

/-- Big-endian 32-bit read at index `i`. -/
def readUInt32BE (msg : List Nat) (i : Nat) : Nat :=
  msg.getD i 0 * 0x1000000 + msg.getD (i + 1) 0 * 0x10000 +
    msg.getD (i + 2) 0 * 0x100 + msg.getD (i + 3) 0

/-- Write one byte at index `i`.  Node's `writeUInt8` validates that the value
fits one byte and stores it; every call site in the proxy passes a value
below 256. -/
def writeUInt8 (v i : Nat) (msg : List Nat) : List Nat := msg.set i v

/-- Big-endian 32-bit write at index `i`, storing the four bytes of
`v mod 2^32` exactly as `Buffer.writeUInt32BE` does. -/
def writeUInt32BE (v i : Nat) (msg : List Nat) : List Nat :=
  (((msg.set i (v / 0x1000000 % 0x100)).set (i + 1) (v / 0x10000 % 0x100)).set
      (i + 2) (v / 0x100 % 0x100)).set (i + 3) (v % 0x100)

/-- `Buffer.slice start stop`. -/
def bufSlice (msg : List Nat) (start stop : Nat) : List Nat :=
  (msg.drop start).take (stop - start)

/-- Mutable per-instance state of the proxy that the packet paths touch:
the configured incoming payload type, the configured outgoing payload type
(`null` until `setOutgoingPayloadType` is called), the fixed outgoing SSRC and
the learned incoming SSRC (`null` until captured). -/
structure ProxyState where
  incomingPayloadType : Nat
  outgoingPayloadType : Option Nat
  outgoingSSRC : Nat
  incomingSSRC : Option Nat
deriving DecidableEq

/-- The RTP rewrite path (`rtpMessage`, source lines 168-189).  Packets shorter
than 12 bytes are forwarded untouched.  Otherwise, when the low 7 bits of
header byte 1 equal the configured incoming payload type, byte 1 is replaced by
its marker bit OR-ed with the outgoing payload type (the bitwise OR of
JavaScript coerces a `null` outgoing payload type to 0, hence `Option.getD 0`);
then the incoming SSRC is captured from byte offset 4 if still unset, the
outgoing SSRC is written at byte offset 8, and the buffer is forwarded.
Returns the new state and the list of buffers handed to `sendOut`. -/
def rtpMessage (st : ProxyState) (msg : List Nat) : ProxyState × List (List Nat) :=
  if msg.length < 12 then (st, [msg])
  else
    let mpt := readUInt8 msg 1
    let pt := mpt &&& 0x7F
    let msg1 :=
      if pt = st.incomingPayloadType then
        writeUInt8 ((mpt &&& 0x80) ||| st.outgoingPayloadType.getD 0) 1 msg
      else msg
    let st1 :=
      if st.incomingSSRC = none then
        { st with incomingSSRC := some (readUInt32BE msg1 4) }
      else st
    (st1, [writeUInt32BE st.outgoingSSRC 8 msg1])

/-! ### Generic byte-access lemmas -/

theorem getD_set_ne (l : List Nat) (i j v : Nat) (h : i ≠ j) :
    (l.set i v).getD j 0 = l.getD j 0 := by
  simp [List.getD_eq_getElem?_getD, List.getElem?_set_ne h]

theorem getD_set_self (l : List Nat) (i v : Nat) (h : i < l.length) :
    (l.set i v).getD i 0 = v := by
  simp [List.getD_eq_getElem?_getD, List.getElem?_set_self h]

theorem length_writeUInt32BE (v i : Nat) (msg : List Nat) :
    (writeUInt32BE v i msg).length = msg.length := by
  simp [writeUInt32BE]

theorem getD_writeUInt32BE_ne (v i j : Nat) (msg : List Nat)
    (h : j < i ∨ i + 3 < j) :
    (writeUInt32BE v i msg).getD j 0 = msg.getD j 0 := by
  unfold writeUInt32BE
  rw [getD_set_ne _ _ _ _ (by omega), getD_set_ne _ _ _ _ (by omega),
    getD_set_ne _ _ _ _ (by omega), getD_set_ne _ _ _ _ (by omega)]

theorem readUInt32BE_writeUInt32BE (v i : Nat) (msg : List Nat)
    (h : i + 3 < msg.length) :
    readUInt32BE (writeUInt32BE v i msg) i = v % 2 ^ 32 := by
  unfold readUInt32BE writeUInt32BE
  rw [getD_set_ne _ _ _ _ (by omega), getD_set_ne _ _ _ _ (by omega),
    getD_set_ne _ _ _ _ (by omega), getD_set_self _ _ _ (by omega)]
  rw [getD_set_ne _ _ _ _ (by omega), getD_set_ne _ _ _ _ (by omega),
    getD_set_self _ _ _ (by simp only [List.length_set]; omega)]
  rw [getD_set_ne _ _ _ _ (by omega),
    getD_set_self _ _ _ (by simp only [List.length_set]; omega)]
  rw [getD_set_self _ _ _ (by simp only [List.length_set]; omega)]
  omega

/-! ### Bit-level lemmas for the marker / payload-type split of byte 1 -/

theorem testBit_ge_of_lt {q i n : Nat} (hq : q < 2 ^ n) (hi : n ≤ i) :
    q.testBit i = false :=
  Nat.testBit_lt_two_pow (lt_of_lt_of_le hq (Nat.pow_le_pow_right (by omega) hi))

theorem marker_preserved (a q : Nat) (hq : q < 128) :
    ((a &&& 128) ||| q) &&& 128 = a &&& 128 := by
  apply Nat.eq_of_testBit_eq
  intro i
  simp only [Nat.testBit_and, Nat.testBit_or]
  by_cases h : i = 7
  · subst h
    have : q.testBit 7 = false := testBit_ge_of_lt (n := 7) (by omega) (le_refl 7)
    simp [this]
  · have h128 : (128 : Nat).testBit i = false := by
      have : (128 : Nat) = 2 ^ 7 := by norm_num
      rw [this, Nat.testBit_two_pow]
      simpa using fun hh => h hh.symm
    simp [h128]

theorem pt_bits_eq (a q : Nat) (hq : q < 128) :
    ((a &&& 128) ||| q) &&& 127 = q := by
  apply Nat.eq_of_testBit_eq
  intro i
  simp only [Nat.testBit_and, Nat.testBit_or]
  have h127 : (127 : Nat) = 2 ^ 7 - 1 := by norm_num
  by_cases h : i < 7
  · have h128 : (128 : Nat).testBit i = false := by
      have : (128 : Nat) = 2 ^ 7 := by norm_num
      rw [this, Nat.testBit_two_pow]
      simpa using by omega
    rw [h127, Nat.testBit_two_pow_sub_one]
    simp [h128, h]
  · have hqb : q.testBit i = false := testBit_ge_of_lt (n := 7) (by omega) (by omega)
    rw [h127, Nat.testBit_two_pow_sub_one]
    simp [hqb, h]

/-! ### Claim C7: short RTP packets pass through untouched -/

/-- Claim C7: every RTP packet shorter than 12 bytes is forwarded byte-for-byte
identical to the input — no payload-type rewrite, no SSRC capture or overwrite,
and no error. -/
theorem rtp_short_passthrough (st : ProxyState) (msg : List Nat)
    (h : msg.length < 12) :
    rtpMessage st msg = (st, [msg]) := by
  simp [rtpMessage, h]

/-- Witness for `rtp_short_passthrough` at a concrete 4-byte packet. -/
theorem rtp_short_passthrough_witness :
    ([0x80, 0x60, 0x00, 0x01] : List Nat).length < 12 ∧
      rtpMessage ⟨96, some 99, 0xAAAAAAAA, none⟩ [0x80, 0x60, 0x00, 0x01] =
        (⟨96, some 99, 0xAAAAAAAA, none⟩, [[0x80, 0x60, 0x00, 0x01]]) :=
  ⟨by decide, rtp_short_passthrough ⟨96, some 99, 0xAAAAAAAA, none⟩ _ (by decide)⟩

/-! ### Claim C1: RTP rewrite of payload type and SSRC -/

/-- Claim C1: for every RTP packet of at least 12 bytes handled by the rewrite
path, with an outgoing payload type `q < 128` configured and an outgoing SSRC
that fits 32 bits: the forwarded packet has the configured SSRC in bytes 8-11,
every byte other than byte 1 and bytes 8-11 unchanged, and — when the declared
payload type matches the configured incoming one — byte 1 keeps its marker bit
and carries `q` in its 7 payload-type bits. -/
theorem rtp_rewrite_forward (st : ProxyState) (msg : List Nat) (q : Nat)
    (h12 : 12 ≤ msg.length) (hq : st.outgoingPayloadType = some q)
    (hq7 : q < 128) (hssrc : st.outgoingSSRC < 2 ^ 32) :
    ∃ fwd, (rtpMessage st msg).2 = [fwd] ∧
      fwd.length = msg.length ∧
      readUInt32BE fwd 8 = st.outgoingSSRC ∧
      (∀ i, i ≠ 1 → ¬(8 ≤ i ∧ i < 12) → readUInt8 fwd i = readUInt8 msg i) ∧
      (readUInt8 msg 1 &&& 0x7F = st.incomingPayloadType →
        readUInt8 fwd 1 &&& 0x80 = readUInt8 msg 1 &&& 0x80 ∧
        readUInt8 fwd 1 &&& 0x7F = q) := by
  have hnot : ¬ msg.length < 12 := by omega
  have hout : (rtpMessage st msg).2 =
      [writeUInt32BE st.outgoingSSRC 8
        (if readUInt8 msg 1 &&& 0x7F = st.incomingPayloadType then
          writeUInt8 ((readUInt8 msg 1 &&& 0x80) ||| q) 1 msg
        else msg)] := by
    simp only [rtpMessage, hq, Option.getD_some, if_neg hnot]
  by_cases hpt : readUInt8 msg 1 &&& 0x7F = st.incomingPayloadType
  · rw [if_pos hpt] at hout
    refine ⟨_, hout, ?_, ?_, ?_, fun _ => ⟨?_, ?_⟩⟩
    · simp [length_writeUInt32BE, writeUInt8]
    · rw [readUInt32BE_writeUInt32BE _ _ _ (by simp [writeUInt8]; omega)]
      exact Nat.mod_eq_of_lt hssrc
    · intro i h1 h2
      unfold readUInt8
      rw [getD_writeUInt32BE_ne _ _ _ _ (by omega)]
      unfold writeUInt8
      rw [getD_set_ne _ _ _ _ (by omega)]
    · unfold readUInt8
      rw [getD_writeUInt32BE_ne _ _ _ _ (by omega)]
      unfold writeUInt8
      rw [getD_set_self _ _ _ (by omega)]
      exact marker_preserved _ _ hq7
    · unfold readUInt8
      rw [getD_writeUInt32BE_ne _ _ _ _ (by omega)]
      unfold writeUInt8
      rw [getD_set_self _ _ _ (by omega)]
      exact pt_bits_eq _ _ hq7
  · rw [if_neg hpt] at hout
    refine ⟨_, hout, ?_, ?_, ?_, fun h => absurd h hpt⟩
    · simp [length_writeUInt32BE]
    · rw [readUInt32BE_writeUInt32BE _ _ _ (by omega)]
      exact Nat.mod_eq_of_lt hssrc
    · intro i h1 h2
      unfold readUInt8
      rw [getD_writeUInt32BE_ne _ _ _ _ (by omega)]

/-- The RTP packet of Scenario A. -/
def msgA : List Nat := [0x80, 0x60, 0x00, 0x01, 0, 0, 0, 0, 0x11, 0x11, 0x11, 0x11]

/-- The proxy configuration of Scenario A: incoming payload type 96, outgoing
payload type 99, outgoing SSRC 0xAAAAAAAA, no learned SSRC yet. -/
def stA : ProxyState := ⟨96, some 99, 0xAAAAAAAA, none⟩

/-- Witness for `rtp_rewrite_forward`, instantiated at Scenario A. -/
theorem rtp_rewrite_forward_scenarioA :
    ∃ fwd, (rtpMessage stA msgA).2 = [fwd] ∧
      fwd.length = msgA.length ∧
      readUInt32BE fwd 8 = stA.outgoingSSRC ∧
      (∀ i, i ≠ 1 → ¬(8 ≤ i ∧ i < 12) → readUInt8 fwd i = readUInt8 msgA i) ∧
      (readUInt8 msgA 1 &&& 0x7F = stA.incomingPayloadType →
        readUInt8 fwd 1 &&& 0x80 = readUInt8 msgA 1 &&& 0x80 ∧
        readUInt8 fwd 1 &&& 0x7F = 99) :=
  rtp_rewrite_forward stA msgA 99 (by decide) rfl (by decide) (by decide)

/-! ### Claim C10: rewrite with a still-null outgoing payload type -/

/-- Claim C10: for every RTP packet of at least 12 bytes whose payload-type
bits match the configured incoming payload type while no outgoing payload type
has been set, the rewrite still happens: byte 1 of the forwarded packet is its
original marker bit alone (the null substitute coerces to 0 in the bitwise OR),
so the payload-type bits become 0, and the packet is forwarded. -/
theorem rtp_rewrite_null_outgoing_pt (st : ProxyState) (msg : List Nat)
    (h12 : 12 ≤ msg.length) (hn : st.outgoingPayloadType = none)
    (hpt : readUInt8 msg 1 &&& 0x7F = st.incomingPayloadType) :
    ∃ fwd, (rtpMessage st msg).2 = [fwd] ∧
      readUInt8 fwd 1 = readUInt8 msg 1 &&& 0x80 ∧
      readUInt8 fwd 1 &&& 0x7F = 0 := by
  have hnot : ¬ msg.length < 12 := by omega
  have hout : (rtpMessage st msg).2 =
      [writeUInt32BE st.outgoingSSRC 8
        (writeUInt8 ((readUInt8 msg 1 &&& 0x80) ||| 0) 1 msg)] := by
    simp only [rtpMessage, hn, Option.getD_none, if_neg hnot, if_pos hpt]
  have hbyte1 : readUInt8
      (writeUInt32BE st.outgoingSSRC 8
        (writeUInt8 ((readUInt8 msg 1 &&& 0x80) ||| 0) 1 msg)) 1 =
      readUInt8 msg 1 &&& 0x80 := by
    unfold readUInt8
    rw [getD_writeUInt32BE_ne _ _ _ _ (by omega)]
    unfold writeUInt8
    rw [getD_set_self _ _ _ (by omega)]
    exact Nat.or_zero _
  refine ⟨_, hout, hbyte1, ?_⟩
  have h0 : (128 : Nat) &&& 127 = 0 := by decide
  rw [hbyte1, Nat.and_assoc, h0, Nat.and_zero]

/-- Witness for `rtp_rewrite_null_outgoing_pt`: a matching packet with the
outgoing payload type still unset gets payload-type bits 0. -/
theorem rtp_rewrite_null_outgoing_pt_witness :
    ∃ fwd, (rtpMessage ⟨96, none, 0xAAAAAAAA, none⟩ msgA).2 = [fwd] ∧
      readUInt8 fwd 1 = readUInt8 msgA 1 &&& 0x80 ∧
      readUInt8 fwd 1 &&& 0x7F = 0 :=
  rtp_rewrite_null_outgoing_pt ⟨96, none, 0xAAAAAAAA, none⟩ msgA
    (by decide) rfl (by decide)

/-! ### The RTCP compound codec -/

/-- The walk of the shared RTCP compound codec (`processRTCPMessage`, source
lines 191-216), generalised over a state `σ` threaded through the
per-sub-packet transform (the source's transforms are closures mutating
`this.incomingSSRC`; a pure transform uses `σ := Unit`).  At each position with
at least 4 remaining bytes it reads the packet-type byte at `offset + 1` and
the big-endian word count at `offset + 2`, computes the sub-packet's total
length `4 + words * 4`, stops if that end overruns the buffer, otherwise
applies the transform to the sub-packet slice, keeps a non-falsy result, and
advances by the total length.  The fuel argument only bounds the recursion
depth: each iteration consumes at least 4 bytes, so the `msg.length` fuel
supplied by `processRTCPMessageSt` never runs out before the walk's own
stopping conditions. -/
def processRTCPLoopSt {σ : Type} (msg : List Nat)
    (t : σ → Nat → List Nat → σ × Option (List Nat)) :
    Nat → Nat → σ → σ × List (List Nat)
  | 0, _, s => (s, [])
  | fuel + 1, offset, s =>
    if offset + 4 ≤ msg.length then
      let pt := readUInt8 msg (offset + 1)
      let len := readUInt16BE msg (offset + 2) * 4
      if msg.length < offset + 4 + len then (s, [])
      else
        let r := t s pt (bufSlice msg offset (offset + 4 + len))
        let rest := processRTCPLoopSt msg t fuel (offset + 4 + len) r.1
        (rest.1, match r.2 with | some p => p :: rest.2 | none => rest.2)
    else (s, [])

/-- The compound codec: walk the buffer from offset 0, then re-encode the kept
sub-packets by concatenation; if none were kept, produce no output (`none`),
which is distinct from producing an empty buffer (`some []`). -/
def processRTCPMessageSt {σ : Type} (s : σ)
    (t : σ → Nat → List Nat → σ × Option (List Nat)) (msg : List Nat) :
    σ × Option (List Nat) :=
  let r := processRTCPLoopSt msg t msg.length 0 s
  (r.1, if r.2.isEmpty then none else some r.2.flatten)

/-- The codec applied to a stateless transform; `none` returned by the
transform models a falsy (null/undefined) JavaScript result, which the
source's `if (packet)` drops, while `some []` models an empty `Buffer`, which
is truthy and therefore kept. -/
def processRTCPMessage (msg : List Nat)
    (t : Nat → List Nat → Option (List Nat)) : Option (List Nat) :=
  (processRTCPMessageSt () (fun u pt p => (u, t pt p)) msg).2

/-- Following the spec's words for the decode contract: the sequence of
well-formed sub-packet byte slices obtained by walking `msg` from `offset`,
used to compare the codec against the specified decode → transform → re-encode
pipeline. -/
def rtcpSplitFrom (msg : List Nat) : Nat → Nat → List (List Nat)
  | 0, _ => []
  | fuel + 1, offset =>
    if offset + 4 ≤ msg.length then
      let len := readUInt16BE msg (offset + 2) * 4
      if msg.length < offset + 4 + len then []
      else bufSlice msg offset (offset + 4 + len) ::
        rtcpSplitFrom msg fuel (offset + 4 + len)
    else []

/-- The sub-packet slices of a whole buffer. -/
def rtcpSplit (msg : List Nat) : List (List Nat) := rtcpSplitFrom msg msg.length 0

/-- Following the spec's words: the trailing bytes the decode walk silently
discards. -/
def rtcpRestFrom (msg : List Nat) : Nat → Nat → List Nat
  | 0, offset => msg.drop offset
  | fuel + 1, offset =>
    if offset + 4 ≤ msg.length then
      let len := readUInt16BE msg (offset + 2) * 4
      if msg.length < offset + 4 + len then msg.drop offset
      else rtcpRestFrom msg fuel (offset + 4 + len)
    else msg.drop offset

/-- The discarded tail of a whole buffer. -/
def rtcpRest (msg : List Nat) : List Nat := rtcpRestFrom msg msg.length 0

/-! ### Codec lemmas -/

theorem getD_bufSlice (msg : List Nat) (a b i : Nat) (h : i < b - a) :
    (bufSlice msg a b).getD i 0 = msg.getD (a + i) 0 := by
  unfold bufSlice
  rw [List.getD_eq_getElem?_getD, List.getD_eq_getElem?_getD,
    List.getElem?_take_of_lt h, List.getElem?_drop]

theorem length_bufSlice (msg : List Nat) (a b : Nat) (h : b ≤ msg.length) :
    (bufSlice msg a b).length = b - a := by
  simp [bufSlice]
  omega

theorem processRTCPLoopSt_out {σ : Type} (msg : List Nat)
    (t : σ → Nat → List Nat → σ × Option (List Nat))
    (g : Nat → List Nat → Option (List Nat))
    (hg : ∀ s pt p, (t s pt p).2 = g pt p) :
    ∀ fuel offset s,
      (processRTCPLoopSt msg t fuel offset s).2 =
        (rtcpSplitFrom msg fuel offset).filterMap fun p => g (readUInt8 p 1) p := by
  intro fuel
  induction fuel with
  | zero =>
    intro offset s
    simp [processRTCPLoopSt, rtcpSplitFrom]
  | succ fuel ih =>
    intro offset s
    by_cases h4 : offset + 4 ≤ msg.length
    · by_cases hov : msg.length < offset + 4 + readUInt16BE msg (offset + 2) * 4
      · simp [processRTCPLoopSt, rtcpSplitFrom, h4, hov]
      · have hpt : readUInt8
            (bufSlice msg offset (offset + 4 + readUInt16BE msg (offset + 2) * 4)) 1 =
            readUInt8 msg (offset + 1) := by
          unfold readUInt8
          rw [getD_bufSlice _ _ _ _ (by omega)]
        simp only [processRTCPLoopSt, rtcpSplitFrom, if_pos h4, if_neg hov,
          List.filterMap_cons, hpt, hg, ih]
        cases g (readUInt8 msg (offset + 1))
            (bufSlice msg offset (offset + 4 + readUInt16BE msg (offset + 2) * 4)) <;>
          simp
    · simp [processRTCPLoopSt, rtcpSplitFrom, h4]

theorem processRTCPLoopSt_state {σ : Type} (msg : List Nat)
    (t : σ → Nat → List Nat → σ × Option (List Nat)) :
    ∀ fuel offset s,
      (processRTCPLoopSt msg t fuel offset s).1 =
        (rtcpSplitFrom msg fuel offset).foldl (fun s p => (t s (readUInt8 p 1) p).1) s := by
  intro fuel
  induction fuel with
  | zero =>
    intro offset s
    simp [processRTCPLoopSt, rtcpSplitFrom]
  | succ fuel ih =>
    intro offset s
    by_cases h4 : offset + 4 ≤ msg.length
    · by_cases hov : msg.length < offset + 4 + readUInt16BE msg (offset + 2) * 4
      · simp [processRTCPLoopSt, rtcpSplitFrom, h4, hov]
      · have hpt : readUInt8
            (bufSlice msg offset (offset + 4 + readUInt16BE msg (offset + 2) * 4)) 1 =
            readUInt8 msg (offset + 1) := by
          unfold readUInt8
          rw [getD_bufSlice _ _ _ _ (by omega)]
        simp only [processRTCPLoopSt, rtcpSplitFrom, if_pos h4, if_neg hov,
          List.foldl_cons, hpt, ih]
    · simp [processRTCPLoopSt, rtcpSplitFrom, h4]

theorem drop_eq_split_append_rest (msg : List Nat) :
    ∀ fuel offset, msg.drop offset =
      (rtcpSplitFrom msg fuel offset).flatten ++ rtcpRestFrom msg fuel offset := by
  intro fuel
  induction fuel with
  | zero =>
    intro offset
    simp [rtcpSplitFrom, rtcpRestFrom]
  | succ fuel ih =>
    intro offset
    by_cases h4 : offset + 4 ≤ msg.length
    · by_cases hov : msg.length < offset + 4 + readUInt16BE msg (offset + 2) * 4
      · simp [rtcpSplitFrom, rtcpRestFrom, h4, hov]
      · simp only [rtcpSplitFrom, rtcpRestFrom, if_pos h4, if_neg hov,
          List.flatten_cons, List.append_assoc]
        rw [← ih (offset + 4 + readUInt16BE msg (offset + 2) * 4)]
        have hdd : msg.drop (offset + 4 + readUInt16BE msg (offset + 2) * 4) =
            (msg.drop offset).drop (4 + readUInt16BE msg (offset + 2) * 4) := by
          rw [List.drop_drop]
          congr 1
          omega
        have hsub : offset + 4 + readUInt16BE msg (offset + 2) * 4 - offset =
            4 + readUInt16BE msg (offset + 2) * 4 := by omega
        rw [hdd, bufSlice, hsub, List.take_append_drop]
    · simp [rtcpSplitFrom, rtcpRestFrom, h4]

theorem rtcpRestFrom_stop (msg : List Nat) :
    ∀ fuel offset, msg.length ≤ offset + fuel →
      (rtcpRestFrom msg fuel offset).length < 4 ∨
        (rtcpRestFrom msg fuel offset).length <
          4 + readUInt16BE (rtcpRestFrom msg fuel offset) 2 * 4 := by
  intro fuel
  induction fuel with
  | zero =>
    intro offset h
    left
    simp [rtcpRestFrom]
    omega
  | succ fuel ih =>
    intro offset h
    by_cases h4 : offset + 4 ≤ msg.length
    · by_cases hov : msg.length < offset + 4 + readUInt16BE msg (offset + 2) * 4
      · right
        have h2 : readUInt16BE (msg.drop offset) 2 = readUInt16BE msg (offset + 2) := by
          unfold readUInt16BE
          rw [List.getD_eq_getElem?_getD, List.getD_eq_getElem?_getD,
            List.getD_eq_getElem?_getD, List.getD_eq_getElem?_getD,
            List.getElem?_drop, List.getElem?_drop]
        simp only [rtcpRestFrom, if_pos h4, if_pos hov, h2, List.length_drop]
        omega
      · simp only [rtcpRestFrom, if_pos h4, if_neg hov]
        exact ih _ (by omega)
    · left
      simp [rtcpRestFrom, h4]
      omega

theorem rtcpSplitFrom_elem_len (msg : List Nat) :
    ∀ fuel offset p, p ∈ rtcpSplitFrom msg fuel offset →
      p.length = 4 + readUInt16BE p 2 * 4 := by
  intro fuel
  induction fuel with
  | zero =>
    intro offset p hp
    simp [rtcpSplitFrom] at hp
  | succ fuel ih =>
    intro offset p hp
    by_cases h4 : offset + 4 ≤ msg.length
    · by_cases hov : msg.length < offset + 4 + readUInt16BE msg (offset + 2) * 4
      · simp [rtcpSplitFrom, h4, hov] at hp
      · simp only [rtcpSplitFrom, if_pos h4, if_neg hov, List.mem_cons] at hp
        rcases hp with hp | hp
        · subst hp
          have hlen : (bufSlice msg offset
              (offset + 4 + readUInt16BE msg (offset + 2) * 4)).length =
              4 + readUInt16BE msg (offset + 2) * 4 := by
            rw [length_bufSlice _ _ _ (by omega)]
            omega
          have h2 : readUInt16BE
              (bufSlice msg offset (offset + 4 + readUInt16BE msg (offset + 2) * 4)) 2 =
              readUInt16BE msg (offset + 2) := by
            unfold readUInt16BE
            rw [getD_bufSlice _ _ _ _ (by omega), getD_bufSlice _ _ _ _ (by omega)]
          rw [hlen, h2]
        · exact ih _ _ hp
    · simp [rtcpSplitFrom, h4] at hp

/-! ### Claim C4: the decode walk of the compound codec -/

/-- Claim C4: the RTCP compound decode walks from offset 0 taking each
sub-packet's total length as `4 + 4 * words` (big-endian 16-bit word count at
offsets 2-3); it stops, without error, as soon as fewer than 4 bytes remain or
the computed sub-packet end overruns the buffer, silently discarding the tail;
kept sub-packets are re-encoded by concatenation in the original order, the
walk advancing over dropped sub-packets as well. -/
theorem rtcp_decode_walk (msg : List Nat) (t : Nat → List Nat → Option (List Nat)) :
    msg = (rtcpSplit msg).flatten ++ rtcpRest msg ∧
      (∀ p ∈ rtcpSplit msg, p.length = 4 + readUInt16BE p 2 * 4) ∧
      ((rtcpRest msg).length < 4 ∨
        (rtcpRest msg).length < 4 + readUInt16BE (rtcpRest msg) 2 * 4) ∧
      processRTCPMessage msg t =
        (if ((rtcpSplit msg).filterMap fun p => t (readUInt8 p 1) p).isEmpty then
          none
        else some ((rtcpSplit msg).filterMap fun p => t (readUInt8 p 1) p).flatten) := by
  refine ⟨?_, ?_, ?_, ?_⟩
  · have h := drop_eq_split_append_rest msg msg.length 0
    simpa [rtcpSplit, rtcpRest] using h
  · intro p hp
    exact rtcpSplitFrom_elem_len msg msg.length 0 p hp
  · exact rtcpRestFrom_stop msg msg.length 0 (by omega)
  · simp only [processRTCPMessage, processRTCPMessageSt]
    rw [processRTCPLoopSt_out msg (fun u pt p => (u, t pt p)) t (fun _ _ _ => rfl)]
    rfl

/-! ### The RTCP forward path -/

/-- The forward-path transform (the closure in `rtcpMessage`, source lines
219-229): sub-packets that are not Sender Reports (type 200) or are shorter
than 8 bytes pass through untouched; otherwise the incoming SSRC is captured
from sub-packet offset 4 if still unset and the outgoing SSRC is written over
that same field. -/
def srTransform (outSSRC : Nat) (s : Option Nat) (pt : Nat) (packet : List Nat) :
    Option Nat × Option (List Nat) :=
  if pt ≠ 200 ∨ packet.length < 8 then (s, some packet)
  else
    ((if s = none then some (readUInt32BE packet 4) else s),
      some (writeUInt32BE outSSRC 4 packet))

/-- The forward RTCP path (`rtcpMessage`, source lines 218-234): run the
codec with the Sender-Report transform, update the learned SSRC, and forward
the reassembled output if there is one. -/
def rtcpMessage (st : ProxyState) (msg : List Nat) : ProxyState × List (List Nat) :=
  let r := processRTCPMessageSt st.incomingSSRC (srTransform st.outgoingSSRC) msg
  ({ st with incomingSSRC := r.1 },
    match r.2 with
    | some p => [p]
    | none => [])

/-- Following the spec's words for the forward path: per sub-packet, Sender
Reports of at least 8 bytes get the outgoing SSRC written at offset 4, all
other sub-packets are untouched. -/
def rewriteSR (o : Nat) (p : List Nat) : List Nat :=
  if readUInt8 p 1 = 200 ∧ 8 ≤ p.length then writeUInt32BE o 4 p else p

theorem srTransform_out (o : Nat) (s : Option Nat) (pt : Nat) (p : List Nat) :
    (srTransform o s pt p).2 =
      some (if pt = 200 ∧ 8 ≤ p.length then writeUInt32BE o 4 p else p) := by
  by_cases h200 : pt = 200
  · by_cases hlen : 8 ≤ p.length
    · simp [srTransform, h200, hlen, Nat.not_lt.mpr hlen]
    · simp [srTransform, h200, hlen, Nat.lt_of_not_le hlen]
  · simp [srTransform, h200]

/-! ### Claim C6: the forward path preserves sub-packet sequence -/

/-- Claim C6: on the forward RTCP path, for every buffer that decodes to at
least one sub-packet, the output is the concatenation, in original order and
count, of the per-sub-packet rewrites; only Sender-Report sub-packets of at
least 8 bytes have the 32-bit field at offset 4 overwritten with the outgoing
SSRC, and every other sub-packet (and every byte outside offsets 4-7 of a
rewritten one) is byte-for-byte unchanged. -/
theorem rtcp_forward_preserves_subpackets (st : ProxyState) (msg : List Nat)
    (h : rtcpSplit msg ≠ []) :
    (rtcpMessage st msg).2 =
      [((rtcpSplit msg).map (rewriteSR st.outgoingSSRC)).flatten] ∧
      ((rtcpSplit msg).map (rewriteSR st.outgoingSSRC)).length =
        (rtcpSplit msg).length ∧
      ∀ p ∈ rtcpSplit msg,
        (¬(readUInt8 p 1 = 200 ∧ 8 ≤ p.length) → rewriteSR st.outgoingSSRC p = p) ∧
        (readUInt8 p 1 = 200 → 8 ≤ p.length →
          rewriteSR st.outgoingSSRC p = writeUInt32BE st.outgoingSSRC 4 p ∧
          (rewriteSR st.outgoingSSRC p).length = p.length ∧
          (st.outgoingSSRC < 2 ^ 32 →
            readUInt32BE (rewriteSR st.outgoingSSRC p) 4 = st.outgoingSSRC) ∧
          ∀ i, i < 4 ∨ 8 ≤ i →
            readUInt8 (rewriteSR st.outgoingSSRC p) i = readUInt8 p i) := by
  have hout : (processRTCPMessageSt st.incomingSSRC
      (srTransform st.outgoingSSRC) msg).2 =
      some (((rtcpSplit msg).map (rewriteSR st.outgoingSSRC)).flatten) := by
    simp only [processRTCPMessageSt]
    rw [processRTCPLoopSt_out msg (srTransform st.outgoingSSRC)
      (fun pt p => some (if pt = 200 ∧ 8 ≤ p.length then
        writeUInt32BE st.outgoingSSRC 4 p else p))
      (srTransform_out st.outgoingSSRC)]
    have hmap : ((rtcpSplitFrom msg msg.length 0).filterMap fun p =>
        some (if readUInt8 p 1 = 200 ∧ 8 ≤ p.length then
          writeUInt32BE st.outgoingSSRC 4 p else p)) =
        (rtcpSplit msg).map (rewriteSR st.outgoingSSRC) := by
      rw [show (fun p => some (if readUInt8 p 1 = 200 ∧ 8 ≤ p.length then
          writeUInt32BE st.outgoingSSRC 4 p else p)) =
        some ∘ rewriteSR st.outgoingSSRC from rfl]
      exact congrFun (List.filterMap_eq_map (rewriteSR st.outgoingSSRC)) (rtcpSplit msg)
    rw [hmap]
    have hne : ((rtcpSplit msg).map (rewriteSR st.outgoingSSRC)).isEmpty = false := by
      simp [List.isEmpty_eq_false, h]
    simp [hne]
  refine ⟨?_, by simp, ?_⟩
  · simp [rtcpMessage, hout]
  · intro p hp
    refine ⟨fun hc => by simp [rewriteSR, hc], fun h200 hlen => ?_⟩
    have hcond : readUInt8 p 1 = 200 ∧ 8 ≤ p.length := ⟨h200, hlen⟩
    refine ⟨by simp [rewriteSR, hcond], ?_, fun hfit => ?_, fun i hi => ?_⟩
    · simp [rewriteSR, hcond, length_writeUInt32BE]
    · rw [show rewriteSR st.outgoingSSRC p = writeUInt32BE st.outgoingSSRC 4 p
        from by simp [rewriteSR, hcond]]
      rw [readUInt32BE_writeUInt32BE _ _ _ (by omega)]
      exact Nat.mod_eq_of_lt hfit
    · rw [show rewriteSR st.outgoingSSRC p = writeUInt32BE st.outgoingSSRC 4 p
        from by simp [rewriteSR, hcond]]
      unfold readUInt8
      rw [getD_writeUInt32BE_ne _ _ _ _ (by omega)]

/-- The compound RTCP buffer of Scenario E: one 28-byte Sender Report (type
200, 6 declared words, SSRC field 0x22222222) followed by one 8-byte
sub-packet of unrecognized type 204. -/
def msgE : List Nat :=
  [0x80, 200, 0, 6, 0x22, 0x22, 0x22, 0x22, 1, 2, 3, 4, 5, 6, 7, 8, 9, 10,
   11, 12, 13, 14, 15, 16, 17, 18, 19, 20,
   0x80, 204, 0, 1, 0xDE, 0xAD, 0xBE, 0xEF]

/-- The proxy configuration used in Scenario E. -/
def stE : ProxyState := ⟨96, some 99, 0xBBBBBBBB, none⟩

/-- Witness for `rtcp_forward_preserves_subpackets` at Scenario E. -/
theorem rtcp_forward_scenarioE :
    (rtcpMessage stE msgE).2 =
      [((rtcpSplit msgE).map (rewriteSR stE.outgoingSSRC)).flatten] ∧
      ((rtcpSplit msgE).map (rewriteSR stE.outgoingSSRC)).length =
        (rtcpSplit msgE).length ∧
      ∀ p ∈ rtcpSplit msgE,
        (¬(readUInt8 p 1 = 200 ∧ 8 ≤ p.length) → rewriteSR stE.outgoingSSRC p = p) ∧
        (readUInt8 p 1 = 200 → 8 ≤ p.length →
          rewriteSR stE.outgoingSSRC p = writeUInt32BE stE.outgoingSSRC 4 p ∧
          (rewriteSR stE.outgoingSSRC p).length = p.length ∧
          (stE.outgoingSSRC < 2 ^ 32 →
            readUInt32BE (rewriteSR stE.outgoingSSRC p) 4 = stE.outgoingSSRC) ∧
          ∀ i, i < 4 ∨ 8 ≤ i →
            readUInt8 (rewriteSR stE.outgoingSSRC p) i = readUInt8 p i) :=
  rtcp_forward_preserves_subpackets stE msgE (by decide)

/-! ### Claim C5: dropped versus empty transform results -/

/-- The guarded forwarding of a codec result (`if (processed)
this.sendOut(processed)`): the list of buffers handed to the sink.  An
empty buffer is an object, hence truthy, so `some []` is forwarded. -/
def runRTCP (msg : List Nat) (t : Nat → List Nat → Option (List Nat)) :
    List (List Nat) :=
  match processRTCPMessage msg t with
  | some p => [p]
  | none => []

/-- Counterexample to claim C5 as stated: a sub-packet rewritten to an empty
byte sequence is kept, because an empty `Buffer` is truthy in JavaScript's
`if (packet)` test; on a one-sub-packet compound whose transform rewrites
everything to empty, the codec produces `some []` (not no output) and the
forwarding sink receives one call carrying an empty buffer. -/
theorem rtcp_empty_rewrite_kept :
    processRTCPMessage [0x80, 200, 0, 0] (fun _ _ => some []) = some [] ∧
      runRTCP [0x80, 200, 0, 0] (fun _ _ => some []) = [[]] := by
  constructor <;> rfl

/-- Claim C5 (amended): a falsy transform result means the sub-packet is
dropped, and whenever the transform result is falsy for every sub-packet of a
compound buffer the codec produces no output at all and the forwarding sink
receives zero calls; a transform result that is an empty byte sequence,
however, is kept and yields a forwarded empty buffer. -/
theorem rtcp_all_dropped_no_output (msg : List Nat)
    (t : Nat → List Nat → Option (List Nat)) (h : ∀ pt p, t pt p = none) :
    processRTCPMessage msg t = none ∧ runRTCP msg t = [] := by
  have h1 : processRTCPMessage msg t = none := by
    simp only [processRTCPMessage, processRTCPMessageSt]
    rw [processRTCPLoopSt_out msg (fun u pt p => (u, t pt p)) t (fun _ _ _ => rfl)]
    simp [h]
  exact ⟨h1, by simp [runRTCP, h1]⟩

/-- Witness for `rtcp_all_dropped_no_output` on a concrete one-sub-packet
buffer with the always-dropping transform. -/
theorem rtcp_all_dropped_no_output_witness :
    processRTCPMessage [0x80, 201, 0, 0] (fun _ _ => none) = none ∧
      runRTCP [0x80, 201, 0, 0] (fun _ _ => none) = [] :=
  rtcp_all_dropped_no_output [0x80, 201, 0, 0] (fun _ _ => none)
    (fun _ _ => rfl)

/-! ### Claim C2: the learned incoming SSRC is write-once -/

/-- An inbound datagram, tagged with the socket it arrives on: the incoming-RTP
socket, the incoming-RTCP socket (forward path), or the outgoing socket
(reply path). -/
inductive RTPEvent
  | rtp (msg : List Nat)
  | rtcp (msg : List Nat)
  | reply (msg : List Nat)

/-- The state update performed by one inbound datagram.  `rtcpReply` (source
lines 236-251) only reads `incomingSSRC` and writes into the packet, never
into the instance, so reply-path packets leave the state unchanged. -/
def stepSSRC (st : ProxyState) : RTPEvent → ProxyState
  | .rtp msg => (rtpMessage st msg).1
  | .rtcp msg => (rtcpMessage st msg).1
  | .reply _ => st

/-- Folding a whole sequence of inbound datagrams over the proxy state. -/
def runEvents (st : ProxyState) (es : List RTPEvent) : ProxyState :=
  es.foldl stepSSRC st

/-- Keep an already-set optional value, otherwise take the new one: the
write-once-if-unset merge. -/
def mergeSSRC : Option Nat → Option Nat → Option Nat
  | some s, _ => some s
  | none, o => o

/-- A qualifying Sender-Report sub-packet: type 200 and at least 8 bytes. -/
def isQualSR (p : List Nat) : Bool :=
  (readUInt8 p 1 == 200) && decide (8 ≤ p.length)

/-- Following the spec's words: the SSRC value a single observation would
contribute to the learned-SSRC slot — an RTP packet of at least 12 bytes
contributes the 32-bit value at its byte offset 4, a forward-path RTCP packet
contributes the value at byte offset 4 of its first qualifying Sender-Report
sub-packet, and a reply-path packet contributes nothing. -/
def eventCapture : RTPEvent → Option Nat
  | .rtp msg => if 12 ≤ msg.length then some (readUInt32BE msg 4) else none
  | .rtcp msg => ((rtcpSplit msg).find? isQualSR).map fun p => readUInt32BE p 4
  | .reply _ => none

/-- The first qualifying observation of a sequence of inbound datagrams. -/
def firstCapture (es : List RTPEvent) : Option Nat :=
  es.foldl (fun acc e => mergeSSRC acc (eventCapture e)) none

theorem foldl_mergeSSRC {α : Type} (cap : α → Option Nat) :
    ∀ (es : List α) (a : Option Nat),
      es.foldl (fun acc e => mergeSSRC acc (cap e)) a =
        mergeSSRC a (es.foldl (fun acc e => mergeSSRC acc (cap e)) none) := by
  intro es
  induction es with
  | nil =>
    intro a
    cases a <;> rfl
  | cons e es ih =>
    intro a
    simp only [List.foldl_cons]
    rw [ih (mergeSSRC a (cap e)), ih (mergeSSRC none (cap e))]
    cases a <;> rfl

theorem foldl_capture_eq_find (q : List Nat → Bool) (f : List Nat → Nat) :
    ∀ l : List (List Nat),
      l.foldl (fun acc p => mergeSSRC acc (if q p then some (f p) else none)) none =
        (l.find? q).map f := by
  intro l
  induction l with
  | nil => rfl
  | cons p l ih =>
    by_cases hq : q p
    · simp only [List.foldl_cons, List.find?_cons_of_pos _ hq, hq, if_true,
        Option.map_some]
      rw [foldl_mergeSSRC (fun p => if q p then some (f p) else none) l
        (mergeSSRC none (some (f p)))]
      rfl
    · simp only [List.foldl_cons, List.find?_cons_of_neg _ hq, hq, if_false]
      exact ih

theorem readUInt32BE_writeUInt8_ne (v j i : Nat) (msg : List Nat)
    (h : j < i ∨ i + 3 < j) :
    readUInt32BE (writeUInt8 v j msg) i = readUInt32BE msg i := by
  unfold readUInt32BE writeUInt8
  rw [getD_set_ne _ _ _ _ (by omega), getD_set_ne _ _ _ _ (by omega),
    getD_set_ne _ _ _ _ (by omega), getD_set_ne _ _ _ _ (by omega)]

theorem rtpMessage_state (st : ProxyState) (msg : List Nat) :
    (rtpMessage st msg).1.incomingSSRC =
      mergeSSRC st.incomingSSRC (eventCapture (RTPEvent.rtp msg)) := by
  by_cases h12 : msg.length < 12
  · simp only [rtpMessage, if_pos h12, eventCapture, if_neg (by omega : ¬ 12 ≤ msg.length)]
    cases h : st.incomingSSRC <;> rfl
  · simp only [rtpMessage, if_neg h12, eventCapture, if_pos (by omega : 12 ≤ msg.length)]
    have hread : readUInt32BE
        (if readUInt8 msg 1 &&& 0x7F = st.incomingPayloadType then
          writeUInt8 ((readUInt8 msg 1 &&& 0x80) ||| st.outgoingPayloadType.getD 0) 1 msg
        else msg) 4 = readUInt32BE msg 4 := by
      split
      · exact readUInt32BE_writeUInt8_ne _ _ _ _ (by omega)
      · rfl
    rw [hread]
    cases h : st.incomingSSRC <;> simp [h, mergeSSRC]

theorem srTransform_state (o : Nat) (s : Option Nat) (pt : Nat) (p : List Nat) :
    (srTransform o s pt p).1 =
      mergeSSRC s (if (pt == 200) && decide (8 ≤ p.length) then
        some (readUInt32BE p 4) else none) := by
  by_cases h200 : pt = 200
  · by_cases hlen : 8 ≤ p.length
    · have hnlt : ¬ p.length < 8 := Nat.not_lt.mpr hlen
      cases s <;> simp [srTransform, h200, hnlt, hlen, mergeSSRC]
    · have h1 : pt ≠ 200 ∨ p.length < 8 := Or.inr (Nat.lt_of_not_le hlen)
      simp only [srTransform, if_pos h1]
      have hb : ((pt == 200) && decide (8 ≤ p.length)) = false := by
        simp [hlen]
      rw [hb]
      cases s <;> rfl
  · have h1 : pt ≠ 200 ∨ p.length < 8 := Or.inl h200
    simp only [srTransform, if_pos h1]
    have hb : ((pt == 200) && decide (8 ≤ p.length)) = false := by
      simp [h200]
    rw [hb]
    cases s <;> rfl

theorem rtcpMessage_state (st : ProxyState) (msg : List Nat) :
    (rtcpMessage st msg).1.incomingSSRC =
      mergeSSRC st.incomingSSRC (eventCapture (RTPEvent.rtcp msg)) := by
  have h1 : (rtcpMessage st msg).1.incomingSSRC =
      (processRTCPLoopSt msg (srTransform st.outgoingSSRC) msg.length 0
        st.incomingSSRC).1 := by
    simp [rtcpMessage, processRTCPMessageSt]
  rw [h1, processRTCPLoopSt_state msg (srTransform st.outgoingSSRC) msg.length 0
    st.incomingSSRC]
  have h2 : ∀ s p, (srTransform st.outgoingSSRC s (readUInt8 p 1) p).1 =
      mergeSSRC s (if isQualSR p then some (readUInt32BE p 4) else none) := by
    intro s p
    rw [srTransform_state]
    rfl
  have h3 : ((rtcpSplitFrom msg msg.length 0).foldl
      (fun s p => (srTransform st.outgoingSSRC s (readUInt8 p 1) p).1)
      st.incomingSSRC) =
      ((rtcpSplitFrom msg msg.length 0).foldl
        (fun s p => mergeSSRC s (if isQualSR p then some (readUInt32BE p 4) else none))
        st.incomingSSRC) := by
    congr 1
    funext s p
    exact h2 s p
  rw [h3, foldl_mergeSSRC (fun p => if isQualSR p then some (readUInt32BE p 4) else none)
    (rtcpSplitFrom msg msg.length 0) st.incomingSSRC,
    foldl_capture_eq_find isQualSR (fun p => readUInt32BE p 4)]
  rfl

theorem stepSSRC_capture (st : ProxyState) (e : RTPEvent) :
    (stepSSRC st e).incomingSSRC = mergeSSRC st.incomingSSRC (eventCapture e) := by
  cases e with
  | rtp m => exact rtpMessage_state st m
  | rtcp m => exact rtcpMessage_state st m
  | reply m => cases h : st.incomingSSRC <;> simp [stepSSRC, eventCapture, h, mergeSSRC]

/-- Claim C2: the learned incoming SSRC is write-once-if-unset — over any
sequence of inbound datagrams on all three paths, the final learned SSRC is
the previously learned one if any, otherwise the value of the first qualifying
observation (an RTP packet of at least 12 bytes, read at byte offset 4, or the
first qualifying Sender-Report sub-packet on the forward RTCP path, read at
sub-packet offset 4); no later packet on either path ever overwrites it. -/
theorem incomingSSRC_first_capture_only (st : ProxyState) (es : List RTPEvent) :
    (runEvents st es).incomingSSRC = mergeSSRC st.incomingSSRC (firstCapture es) := by
  induction es generalizing st with
  | nil =>
    cases h : st.incomingSSRC <;> simp [runEvents, firstCapture, h, mergeSSRC]
  | cons e es ih =>
    have hstep : runEvents st (e :: es) = runEvents (stepSSRC st e) es := rfl
    rw [hstep, ih (stepSSRC st e), stepSSRC_capture]
    have hfc : firstCapture (e :: es) = (es.foldl
        (fun acc x => mergeSSRC acc (eventCapture x)) (mergeSSRC none (eventCapture e))) := rfl
    rw [hfc, foldl_mergeSSRC eventCapture es (mergeSSRC none (eventCapture e))]
    cases h : st.incomingSSRC <;> rfl

/-! ### Claim C9: the reply path needs a learned incoming SSRC -/

/-- TypeScript's non-null assertion `incomingSSRC!` as used by the reply
path: an absent value leaves the typed fragment, modelled as an error
outcome. -/
def nonNullSSRC : Option Nat → Except String Nat
  | some x => .ok x
  | none => .error "incomingSSRC is null"

/-- The reply-path transform (the closure in `rtcpReply`, source lines
237-245): sub-packets that are not Receiver Reports (type 201) or are shorter
than 12 bytes pass through; otherwise the learned incoming SSRC, read through
the non-null assertion, is written at sub-packet byte offset 8. -/
def rrTransformE (inSSRC : Option Nat) (pt : Nat) (packet : List Nat) :
    Except String (Option (List Nat)) :=
  if pt ≠ 201 ∨ packet.length < 12 then .ok (some packet)
  else
    match nonNullSSRC inSSRC with
    | .error e => .error e
    | .ok s => .ok (some (writeUInt32BE s 8 packet))

/-- The codec walk threading the error outcome of a fallible transform (an
uncaught exception aborts the walk). -/
def processRTCPLoopE (msg : List Nat)
    (t : Nat → List Nat → Except String (Option (List Nat))) :
    Nat → Nat → Except String (List (List Nat))
  | 0, _ => .ok []
  | fuel + 1, offset =>
    if offset + 4 ≤ msg.length then
      let pt := readUInt8 msg (offset + 1)
      let len := readUInt16BE msg (offset + 2) * 4
      if msg.length < offset + 4 + len then .ok []
      else
        match t pt (bufSlice msg offset (offset + 4 + len)) with
        | .error e => .error e
        | .ok tp =>
          match processRTCPLoopE msg t fuel (offset + 4 + len) with
          | .error e => .error e
          | .ok rest => .ok (match tp with | some p => p :: rest | none => rest)
    else .ok []

/-- The reply RTCP path (`rtcpReply`, source lines 236-251) with the non-null
assertion made explicit. -/
def rtcpReplyE (inSSRC : Option Nat) (msg : List Nat) :
    Except String (Option (List Nat)) :=
  match processRTCPLoopE msg (rrTransformE inSSRC) msg.length 0 with
  | .error e => .error e
  | .ok pkts => .ok (if pkts.isEmpty then none else some pkts.flatten)

theorem processRTCPLoopE_ok (msg : List Nat)
    (t : Nat → List Nat → Except String (Option (List Nat)))
    (h : ∀ pt p, ∃ r, t pt p = .ok r) :
    ∀ fuel offset, ∃ l, processRTCPLoopE msg t fuel offset = .ok l := by
  intro fuel
  induction fuel with
  | zero =>
    intro offset
    exact ⟨[], rfl⟩
  | succ fuel ih =>
    intro offset
    by_cases h4 : offset + 4 ≤ msg.length
    · by_cases hov : msg.length < offset + 4 + readUInt16BE msg (offset + 2) * 4
      · exact ⟨[], by simp [processRTCPLoopE, h4, hov]⟩
      · obtain ⟨r, hr⟩ := h (readUInt8 msg (offset + 1))
          (bufSlice msg offset (offset + 4 + readUInt16BE msg (offset + 2) * 4))
        obtain ⟨l, hl⟩ := ih (offset + 4 + readUInt16BE msg (offset + 2) * 4)
        cases r with
        | some p => exact ⟨p :: l, by simp [processRTCPLoopE, h4, hov, hr, hl]⟩
        | none => exact ⟨l, by simp [processRTCPLoopE, h4, hov, hr, hl]⟩
    · exact ⟨[], by simp [processRTCPLoopE, h4]⟩

/-- A concrete qualifying Receiver Report: type 201, declared length 2 words,
12 bytes total. -/
def rrBefore : List Nat := [0x80, 201, 0, 2, 9, 9, 9, 9, 1, 1, 1, 1]

/-- Claim C9: on the reply path the learned incoming SSRC is read through a
non-null assertion and written at sub-packet byte offset 8; the path is
error-free whenever an incoming SSRC has already been learned, but a
qualifying Receiver Report processed before any capture reaches the non-null
assertion on an absent value, so the graceful no-error degradation used
elsewhere in the component is not guaranteed there. -/
theorem rtcpReply_requires_learned_ssrc (s : Nat) (msg : List Nat) :
    (∃ r, rtcpReplyE (some s) msg = .ok r) ∧
      rtcpReplyE none rrBefore = .error "incomingSSRC is null" ∧
      rtcpReplyE (some s) rrBefore = .ok (some (writeUInt32BE s 8 rrBefore)) := by
  refine ⟨?_, rfl, ?_⟩
  · have h : ∀ pt p, ∃ r, rrTransformE (some s) pt p = .ok r := by
      intro pt p
      unfold rrTransformE
      by_cases hc : pt ≠ 201 ∨ p.length < 12
      · exact ⟨some p, by rw [if_pos hc]⟩
      · exact ⟨some (writeUInt32BE s 8 p), by rw [if_neg hc]; rfl⟩
    obtain ⟨l, hl⟩ := processRTCPLoopE_ok msg (rrTransformE (some s)) h msg.length 0
    exact ⟨if l.isEmpty then none else some l.flatten, by simp [rtcpReplyE, hl]⟩
  · rfl

/-! ### Claim C3: the adjacent socket-pair allocator -/

/-- Socket-level actions of the pair allocator, in program order: the two
binds of an attempt, each recording its port and outcome, and the closes
issued after a failed attempt. -/
inductive SockAct
  | bind1 (port : Nat) (ok : Bool)
  | bind2 (port : Nat) (ok : Bool)
  | close1
  | close2
deriving DecidableEq

/-- The candidate-port advance of the pair allocator (source lines 299-303):
the cursor wraps from 65534 back to 10000, otherwise advances by one. -/
def nextPairPort (p : Nat) : Nat := if p = 65534 then 10000 else p + 1

/-- Outcome of one run of the `recheck` closure (source lines 289-309). -/
inductive RecheckAction
  | wait
  | resolveNow
  | retryNext
deriving DecidableEq

/-- The `recheck` closure: return early while either socket is unsettled
(state 0), resolve when both are listening (state 2), otherwise advance the
cursor, close both sockets and retry. -/
def recheck (s1 s2 : Nat) : RecheckAction :=
  if s1 = 0 ∨ s2 = 0 then .wait
  else if s1 = 2 ∧ s2 = 2 then .resolveNow
  else .retryNext

/-- One allocation attempt at ports `p`, `p + 1`: each socket's completion
event (state 2 on `listening`, 1 on `error`, decided by whether its port is
available) updates its slot and runs `recheck`; the two events are delivered
in either order (`sock1First`), and the attempt's outcome is the first
non-wait recheck result. -/
def attemptOutcome (avail : Nat → Bool) (p : Nat) (sock1First : Bool) :
    RecheckAction :=
  let v1 : Nat := if avail p then 2 else 1
  let v2 : Nat := if avail (p + 1) then 2 else 1
  if sock1First then
    match recheck v1 0 with
    | .wait => recheck v1 v2
    | r => r
  else
    match recheck 0 v2 with
    | .wait => recheck v1 v2
    | r => r

/-- The pair allocator (`createSocketPair`, source lines 282-337) in an
environment where binding a port succeeds exactly when `avail` holds for it;
`order` gives the event-delivery order within each attempt, and `fuel` bounds
the number of attempts (the source retries without bound).  Returns the trace
of socket actions and, on success, the two bound ports. -/
def createSocketPair (avail : Nat → Bool) (order : Nat → Bool) :
    Nat → Nat → List SockAct × Option (Nat × Nat)
  | _, 0 => ([], none)
  | p, fuel + 1 =>
    let acts := [SockAct.bind1 p (avail p), SockAct.bind2 (p + 1) (avail (p + 1))]
    match attemptOutcome avail p (order fuel) with
    | .resolveNow => (acts, some (p, p + 1))
    | .wait => (acts, none)
    | .retryNext =>
      let r := createSocketPair avail order (nextPairPort p) fuel
      (acts ++ SockAct.close1 :: SockAct.close2 :: r.1, r.2)

theorem attemptOutcome_eq (avail : Nat → Bool) (p : Nat) (o : Bool) :
    attemptOutcome avail p o =
      (if avail p && avail (p + 1) then RecheckAction.resolveNow
       else RecheckAction.retryNext) := by
  cases h1 : avail p <;> cases h2 : avail (p + 1) <;> cases o <;>
    simp [attemptOutcome, recheck, h1, h2]

/-- The shape of the trace of failed attempts from cursor `p` up to cursor
`q`: each failed attempt binds both candidate ports, at least one bind fails,
and both sockets are closed before the next attempt's binds. -/
inductive FailChain (avail : Nat → Bool) : Nat → Nat → List SockAct → Prop
  | nil (p : Nat) : FailChain avail p p []
  | cons (p q : Nat) (tr : List SockAct)
      (hfail : ¬(avail p = true ∧ avail (p + 1) = true))
      (hrest : FailChain avail (nextPairPort p) q tr) :
      FailChain avail p q
        (SockAct.bind1 p (avail p) :: SockAct.bind2 (p + 1) (avail (p + 1)) ::
          SockAct.close1 :: SockAct.close2 :: tr)

/-- Claim C3: every successful run of the pair allocator yields two
numerically adjacent ports, both of which were bindable; the pair succeeds
only when both binds succeed, and the trace is a chain of failed attempts —
each binding both candidates, failing at least one, and closing both sockets
(including a successfully bound one) before the cursor advances via
`nextPairPort`, which wraps from 65534 back to 10000 — followed by the two
successful binds; a partial success is never kept. -/
theorem socket_pair_adjacent_all_or_nothing (avail : Nat → Bool)
    (order : Nat → Bool) (p fuel q1 q2 : Nat)
    (h : (createSocketPair avail order p fuel).2 = some (q1, q2)) :
    q2 = q1 + 1 ∧ avail q1 = true ∧ avail q2 = true ∧
      (∃ tr, (createSocketPair avail order p fuel).1 =
          tr ++ [SockAct.bind1 q1 true, SockAct.bind2 q2 true] ∧
        FailChain avail p q1 tr) ∧
      nextPairPort 65534 = 10000 ∧ ∀ r, r ≠ 65534 → nextPairPort r = r + 1 := by
  induction fuel generalizing p with
  | zero => simp [createSocketPair] at h
  | succ fuel ih =>
    by_cases hb : avail p && avail (p + 1)
    · have hres : createSocketPair avail order p (fuel + 1) =
          ([SockAct.bind1 p (avail p), SockAct.bind2 (p + 1) (avail (p + 1))],
            some (p, p + 1)) := by
        simp [createSocketPair, attemptOutcome_eq, hb]
      rw [hres] at h
      have h2 : some (p, p + 1) = some (q1, q2) := h
      have h3 := Option.some.inj h2
      have e1 : p = q1 := congrArg Prod.fst h3
      have e2 : p + 1 = q2 := congrArg Prod.snd h3
      subst e1
      subst e2
      have hb2 : avail p = true ∧ avail (p + 1) = true := by simpa using hb
      refine ⟨rfl, hb2.1, hb2.2, ⟨[], ?_, FailChain.nil p⟩, by decide,
        fun r hr => by simp [nextPairPort, hr]⟩
      rw [hres]
      simp [hb2.1, hb2.2]
    · have hout : attemptOutcome avail p (order fuel) = RecheckAction.retryNext := by
        rw [attemptOutcome_eq]
        simp only [hb, if_false]
        rw [if_neg]
        simp only [Bool.not_eq_true] at hb
        simp [hb]
      have hres : createSocketPair avail order p (fuel + 1) =
          ([SockAct.bind1 p (avail p), SockAct.bind2 (p + 1) (avail (p + 1))] ++
            SockAct.close1 :: SockAct.close2 ::
              (createSocketPair avail order (nextPairPort p) fuel).1,
            (createSocketPair avail order (nextPairPort p) fuel).2) := by
        simp [createSocketPair, hout]
      rw [hres] at h
      have h2 : (createSocketPair avail order (nextPairPort p) fuel).2 =
          some (q1, q2) := h
      obtain ⟨hadj, hav1, hav2, ⟨tr, htr, hchain⟩, hwrap⟩ := ih (nextPairPort p) h2
      have hfail : ¬(avail p = true ∧ avail (p + 1) = true) := by
        intro hc
        rw [hc.1, hc.2] at hb
        exact hb rfl
      refine ⟨hadj, hav1, hav2,
        ⟨SockAct.bind1 p (avail p) :: SockAct.bind2 (p + 1) (avail (p + 1)) ::
          SockAct.close1 :: SockAct.close2 :: tr, ?_,
          FailChain.cons p q1 tr hfail hchain⟩, hwrap⟩
      rw [hres]
      simp [htr]

/-- Witness for `socket_pair_adjacent_all_or_nothing` at Scenario D: port
10000 occupied, ports 10001 and 10002 free — the allocator closes both sockets
of the failed first attempt and resolves with 10001, 10002. -/
theorem socket_pair_scenarioD :
    10002 = 10001 + 1 ∧ (fun r => r != 10000) 10001 = true ∧
      (fun r => r != 10000) 10002 = true ∧
      (∃ tr, (createSocketPair (fun r => r != 10000) (fun _ => true) 10000 3).1 =
          tr ++ [SockAct.bind1 10001 true, SockAct.bind2 10002 true] ∧
        FailChain (fun r => r != 10000) 10000 10001 tr) ∧
      nextPairPort 65534 = 10000 ∧ ∀ r, r ≠ 65534 → nextPairPort r = r + 1 :=
  socket_pair_adjacent_all_or_nothing (fun r => r != 10000) (fun _ => true)
    10000 3 10001 10002 (by decide)

/-! ### Claim C8: destroy -/

/-- Which of the three owned socket fields have been assigned: the fields are
declared definitely-assigned and are undefined until `setup` stores a socket
in them, and `destroy` only tests their truthiness. -/
structure Sockets where
  incomingRTPSocket : Bool
  incomingRTCPSocket : Bool
  outgoingSocket : Bool
deriving DecidableEq

/-- Identifier of an owned socket, used to record `close()` calls. -/
inductive SockId
  | rtp
  | rtcp
  | outgoing
deriving DecidableEq

/-- `destroy` (source lines 68-80): issue `close()` on each socket field that
is set; the fields themselves are never cleared, so the instance state comes
back unchanged together with the list of close calls issued. -/
def destroy (s : Sockets) : Sockets × List SockId :=
  (s,
    (if s.incomingRTPSocket then [SockId.rtp] else []) ++
      (if s.incomingRTCPSocket then [SockId.rtcp] else []) ++
      (if s.outgoingSocket then [SockId.outgoing] else []))

/-- Counterexample to claim C8 as stated: `destroy` never clears the socket
fields, so a second call in succession issues `close()` on every owned socket
again — across two successive calls each owned socket receives two close
calls, not exactly one (and Node's datagram `close()` throws when the socket
is not running, so the second call is not guaranteed error-free either). -/
theorem destroy_recloses_on_second_call :
    ((destroy ⟨true, true, true⟩).2 ++
        (destroy (destroy ⟨true, true, true⟩).1).2).count SockId.rtp = 2 ∧
      (destroy (destroy ⟨true, true, true⟩).1).2 = (destroy ⟨true, true, true⟩).2 := by
  constructor <;> rfl

/-- Claim C8 (amended): a single `destroy` call closes exactly the sockets
currently set — each once, in field order — skips unset ones, tolerating any
subset including the never-initialized state, raises no error of its own, and
leaves the fields unchanged; because the fields stay set, every further call
issues the same close calls again rather than closing each socket exactly
once overall. -/
theorem destroy_per_call (s : Sockets) :
    (destroy s).1 = s ∧
      (destroy s).2.count SockId.rtp = (if s.incomingRTPSocket then 1 else 0) ∧
      (destroy s).2.count SockId.rtcp = (if s.incomingRTCPSocket then 1 else 0) ∧
      (destroy s).2.count SockId.outgoing = (if s.outgoingSocket then 1 else 0) ∧
      (destroy (destroy s).1).2 = (destroy s).2 := by
  obtain ⟨a, b, c⟩ := s
  cases a <;> cases b <;> cases c <;> exact ⟨rfl, by rfl, by rfl, by rfl, rfl⟩

end RTPProxy
